import Mathlib

/-!
# ThreadPool: a shallow embedding of `threadpool.h` / `threadpool.cpp`

The development follows the C++ sources class by class:

* `Any`        : the type-erased value box (`Any::Any`, `Any::cast`);
* `Semaphore`  : the counting semaphore (`Semaphore::wait`, `Semaphore::post`);
* `Result`     : the one-shot future (`Result::get`, `Result::setVal`);
* `Task`       : the unit of work (`Task::exec`, `Task::setResult`);
* `ThreadPool` : the pool (`submitTask`, `start`, `threadFunc`, the destructor).

Conventions.  `int` variables are integers (`Int`), `size_t` and `unsigned`
variables are naturals (`Nat`); where C++ compares a signed with an unsigned
operand the signed one is converted modulo the width of the unsigned type, as the
usual arithmetic conversions do.  A call that blocks on a condition variable
returns `none`.
-/

namespace ThreadPoolSpec

/-! ## Machine integers -/

/-- Conversion of a signed value to `size_t` (64 bit): the value modulo `2^64`. -/
def toSizeT (x : Int) : Nat := (x % 2 ^ 64).toNat

/-- Conversion of a signed value to `unsigned int` (32 bit): the value modulo `2^32`. -/
def toUInt (x : Int) : Nat := (x % 2 ^ 32).toNat

/-- The operator `++` on an `unsigned int`. -/
def uintInc (n : Nat) : Nat := (n + 1) % 2 ^ 32

/-- The operator `--` on an `unsigned int`. -/
def uintDec (n : Nat) : Nat := (n + 2 ^ 32 - 1) % 2 ^ 32

/-- Largest value of an `int`. -/
def INT_MAX : Int := 2 ^ 31 - 1

/-! ## Any -/

/-- The family of C++ types a program stores in an `Any`: `τ` are the run-time type
identities (what RTTI compares), `val T` the values of type `T`.  `cstring` is
`const char*` and `emptyLiteral` the string literal `""`, which `Result::get`
returns for an invalid result. -/
class CppTypes (τ : Type) where
  val : τ → Type
  cstring : τ
  emptyLiteral : val cstring

/-- `class Any`: `base_` is the owning pointer to a `Derive<T>` object, `none` being
the null pointer (a default-constructed or moved-from `Any`). -/
structure Any (τ : Type) [CppTypes τ] where
  base_ : Option ((T : τ) × CppTypes.val T)

/-- The error thrown by `Any::cast`. -/
inductive CastError where
  | bad_cast
  deriving DecidableEq, Repr

namespace Any

variable {τ : Type} [CppTypes τ]

/-- `Any() = default`: the box holds nothing. -/
def empty : Any τ := ⟨none⟩

/-- `template<typename T> Any(T data) : base_(std::make_unique<Derive<T>>(data))`. -/
def ofData (T : τ) (data : CppTypes.val T) : Any τ := ⟨some ⟨T, data⟩⟩

/-- `template<typename T> T cast()`: `dynamic_cast<Derive<T>*>(base_.get())` yields the
null pointer when `base_` is null or points to a `Derive<U>` with `U` another type;
then `std::bad_cast` is thrown, otherwise `pd->data_` is returned. -/
def cast [DecidableEq τ] (a : Any τ) (T : τ) : Except CastError (CppTypes.val T) :=
  match a.base_ with
  | none => .error .bad_cast
  | some ⟨U, data⟩ => if h : U = T then .ok (h ▸ data) else .error .bad_cast

end Any

/-! ## Semaphore -/

/-- `class Semaphore`: the resource count and the exit flag set by the destructor. -/
structure Semaphore where
  resLimit_ : Int
  isExit_ : Bool
  deriving DecidableEq, Repr

namespace Semaphore

/-- `Semaphore(int limit = 0)`. -/
def new (limit : Int) : Semaphore := { resLimit_ := limit, isExit_ := false }

/-- `Semaphore::wait`: returns at once when `isExit_`; otherwise waits on `cond_` for
`resLimit_ > 0` and decrements.  `none`: the predicate is false, the caller stays
blocked (until some other thread posts). -/
def wait (s : Semaphore) : Option Semaphore :=
  if s.isExit_ then some s
  else if s.resLimit_ > 0 then some { s with resLimit_ := s.resLimit_ - 1 }
  else none

/-- `Semaphore::post`: returns at once when `isExit_`; otherwise increments. -/
def post (s : Semaphore) : Semaphore :=
  if s.isExit_ then s else { s with resLimit_ := s.resLimit_ + 1 }

end Semaphore

/-! ## Result and Task -/

/-- `class Result`: the value slot, the semaphore and the validity flag (the
`task_` back pointer plays no part in `get` and `setVal`). -/
structure Result (τ : Type) [CppTypes τ] where
  any_ : Any τ
  sem_ : Semaphore
  isValid_ : Bool

namespace Result

variable {τ : Type} [CppTypes τ]

/-- `Result::Result(task, isValid)`: default-constructed `any_` and `sem_`. -/
def new (isValid : Bool) : Result τ :=
  { any_ := Any.empty, sem_ := Semaphore.new 0, isValid_ := isValid }

/-- `Result::setVal`: `any_ = std::move(any); sem_.post();`. -/
def setVal (r : Result τ) (any : Any τ) : Result τ :=
  { r with any_ := any, sem_ := r.sem_.post }

/-- `Result::get`: an invalid result returns `Any("")` at once; a valid one waits on
the semaphore and returns `std::move(any_)`, which leaves `any_` empty.  The value
is the returned `Any` with the state of the result afterwards; `none` when the call
blocks in `sem_.wait()`. -/
def get (r : Result τ) : Option (Any τ × Result τ) :=
  if !r.isValid_ then some (Any.ofData CppTypes.cstring CppTypes.emptyLiteral, r)
  else
    match r.sem_.wait with
    | none => none
    | some s => some (r.any_, { r with any_ := Any.empty, sem_ := s })

end Result

/-- `class Task`: `run` is the value the user-defined `run()` returns, `result_` the
object `Result* result_` points to (`none` for `nullptr`). -/
structure Task (τ : Type) [CppTypes τ] where
  run : Any τ
  result_ : Option (Result τ)

namespace Task

variable {τ : Type} [CppTypes τ]

/-- `Task::setResult`. -/
def setResult (t : Task τ) (res : Result τ) : Task τ := { t with result_ := some res }

/-- `Task::exec`: `if (result_ != nullptr) result_->setVal(run());`. -/
def exec (t : Task τ) : Task τ :=
  match t.result_ with
  | none => t
  | some r => { t with result_ := some (r.setVal t.run) }

end Task

/-! ## ThreadPool -/

/-- `enum PoolMode`. -/
inductive PoolMode where
  | MODE_FIXED
  | MODE_CACHED
  deriving DecidableEq, Repr

/-- `const int TASK_MAX_THRESHHOLD = 1024`. -/
def TASK_MAX_THRESHHOLD : Int := 1024

/-- `const int THREAD_MAX_THRESHHOLD = 10`. -/
def THREAD_MAX_THRESHHOLD : Int := 10

/-- `const int THREAD_MAX_IDLE_TIME = 10` (seconds). -/
def THREAD_MAX_IDLE_TIME : Int := 10

/-- `class ThreadPool`, the data members guarded by `taskQueMtx_`.  `α` is the type of
the queued task objects.  `threads_` lists the keys of the map from thread id to
`Thread` object (each `Thread` only holds its id and the bound thread function).
`generateId_` is the static counter `Thread::generateId_` from which the
constructor of `Thread` draws the ids; it is carried along with the pool. -/
structure ThreadPool (α : Type) where
  threads_ : List Nat
  initThreadsSize_ : Nat
  curThreadsSize_ : Int
  idleThreadSize_ : Int
  threadSizeThreshHOld_ : Int
  taskQue_ : List α
  taskSize_ : Nat
  taskQueMaxThreshHold_ : Int
  poolMode_ : PoolMode
  isPoolRunning_ : Bool
  generateId_ : Nat

/-- `std::cv_status`, what `wait_for` returns. -/
inductive CvStatus where
  | no_timeout
  | timeout
  deriving DecidableEq, Repr

/-- Where a thread running `threadFunc` stands when it does not hold `taskQueMtx_`:
about to lock at the top of the `for(;;)` body, inside `notEmpty_.wait_for`, inside
`notEmpty_.wait`, executing a dequeued task, or returned. -/
inductive WorkerAt (α : Type) where
  | loopTop
  | waitFor
  | wait
  | exec (task : α)
  | finished
  deriving DecidableEq, Repr

namespace ThreadPool

variable {α : Type}

/-- `ThreadPool::ThreadPool()`, with the current value of `Thread::generateId_`. -/
def new (generateId : Nat) : ThreadPool α :=
  { threads_ := []
    initThreadsSize_ := 4
    curThreadsSize_ := 0
    idleThreadSize_ := 0
    threadSizeThreshHOld_ := THREAD_MAX_THRESHHOLD
    taskQue_ := []
    taskSize_ := 0
    taskQueMaxThreshHold_ := TASK_MAX_THRESHHOLD
    poolMode_ := .MODE_FIXED
    isPoolRunning_ := false
    generateId_ := generateId }

/-- `ThreadPool::checkRunningState`. -/
def checkRunningState (p : ThreadPool α) : Bool := p.isPoolRunning_

/-- `ThreadPool::setPoolMode`. -/
def setPoolMode (p : ThreadPool α) (mode : PoolMode) : ThreadPool α :=
  if p.checkRunningState then p else { p with poolMode_ := mode }

/-- `ThreadPool::setTaskQueMaxThreshHold`. -/
def setTaskQueMaxThreshHold (p : ThreadPool α) (threshHold : Int) : ThreadPool α :=
  if p.checkRunningState then p else { p with taskQueMaxThreshHold_ := threshHold }

/-- `ThreadPool::setThreadSizeThreshHold`. -/
def setThreadSizeThreshHold (p : ThreadPool α) (threshHold : Int) : ThreadPool α :=
  if p.checkRunningState then p
  else if p.poolMode_ = .MODE_CACHED then { p with threadSizeThreshHOld_ := threshHold }
  else p

/-- The two statements `auto ptr = std::make_unique<Thread>(...)` (which draws the id
`generateId_++`) and `threads_.emplace(threadId, std::move(ptr))` (which inserts
unless the key is present). -/
def emplaceThread (p : ThreadPool α) : ThreadPool α :=
  { p with
    threads_ := if p.generateId_ ∈ p.threads_ then p.threads_
                else p.threads_ ++ [p.generateId_]
    generateId_ := p.generateId_ + 1 }

/-- The predicate of the `wait_for` in `submitTask`:
`taskQue_.size() < taskQueMaxThreshHold_`, a `size_t` compared with an `int`. -/
def notFull (p : ThreadPool α) : Bool :=
  decide (p.taskQue_.length < toSizeT p.taskQueMaxThreshHold_)

/-- The condition under which `submitTask` creates a thread, evaluated after the
enqueue: `poolMode_ == MODE_CACHED && taskSize_ > idleThreadSize_ &&
curThreadsSize_ < threadSizeThreshHOld_` (the second comparison is `unsigned`
against `int`, the third `int` against `int`). -/
def needsThread (p : ThreadPool α) : Bool :=
  decide (p.poolMode_ = .MODE_CACHED) && decide (p.taskSize_ > toUInt p.idleThreadSize_)
    && decide (p.curThreadsSize_ < p.threadSizeThreshHOld_)

/-- The statements `taskQue_.emplace(sp); taskSize_++;` of `submitTask`. -/
def enqueue (p : ThreadPool α) (sp : α) : ThreadPool α :=
  { p with taskQue_ := p.taskQue_ ++ [sp], taskSize_ := uintInc p.taskSize_ }

/-- The body of the `if` of `submitTask` that creates a thread: the thread object is
made and registered, started, and `curThreadsSize_++; idleThreadSize_++;`. -/
def addThread (p : ThreadPool α) : ThreadPool α :=
  { p.emplaceThread with
    curThreadsSize_ := p.curThreadsSize_ + 1
    idleThreadSize_ := p.idleThreadSize_ + 1 }

/-- `ThreadPool::submitTask`, from the moment `wait_for` evaluates its predicate for
the last time (at once when the queue has room, after the timeout of one second
otherwise; what other threads did meanwhile is part of the state `p`).  The value
is the validity flag of the returned `Result` and the state on return. -/
def submitTask (p : ThreadPool α) (sp : α) : Bool × ThreadPool α :=
  if !p.notFull then (false, p)
  else if (p.enqueue sp).needsThread then (true, (p.enqueue sp).addThread)
  else (true, p.enqueue sp)

/-- `ThreadPool::start`: the flag and the two counts are set, `initThreadSize` threads
are created and registered, then every registered thread is started and counted
idle.  The argument is a non-negative `int` (a negative one would be converted to a
huge `size_t` bound for the `int` loop counter). -/
def start (p : ThreadPool α) (initThreadSize : Nat) : ThreadPool α :=
  let p1 := { p with isPoolRunning_ := true
                     initThreadsSize_ := initThreadSize
                     curThreadsSize_ := initThreadSize }
  let p2 := (List.range initThreadSize).foldl (fun q _ => q.emplaceThread) p1
  { p2 with idleThreadSize_ := p2.idleThreadSize_ + p2.threads_.length }

/-- `ThreadPool::threadFunc`, from the evaluation of `while (taskQue_.size() == 0)`
with the lock held to the next point where the thread gives the lock up: it
returns (pool stopped), starts waiting on `notEmpty_`, or has dequeued the front
task and leaves the critical section to execute it. -/
def threadFuncLoop (p : ThreadPool α) (threadid : Nat) : ThreadPool α × WorkerAt α :=
  match p.taskQue_ with
  | [] =>
    if !p.isPoolRunning_ then
      ({ p with threads_ := p.threads_.erase threadid }, .finished)
    else if p.poolMode_ = .MODE_CACHED then (p, .waitFor)
    else (p, .wait)
  | task :: rest =>
    ({ p with idleThreadSize_ := p.idleThreadSize_ - 1
              taskQue_ := rest
              taskSize_ := uintDec p.taskSize_ }, .exec task)

/-- `ThreadPool::threadFunc`, when `notEmpty_.wait_for(lock, 1s)` returns `status` with
the lock held again, `dur` seconds after this thread last finished a task: on a
timeout with `dur.count() >= THREAD_MAX_IDLE_TIME && curThreadsSize_ >
initThreadsSize_` (an `int` compared with a `size_t`) the thread deregisters and
returns; otherwise the `while` condition is evaluated again. -/
def threadFuncWoken (p : ThreadPool α) (threadid : Nat) (status : CvStatus) (dur : Int) :
    ThreadPool α × WorkerAt α :=
  if status = .timeout ∧ dur ≥ THREAD_MAX_IDLE_TIME
      ∧ toSizeT p.curThreadsSize_ > p.initThreadsSize_ then
    ({ p with threads_ := p.threads_.erase threadid
              curThreadsSize_ := p.curThreadsSize_ - 1
              idleThreadSize_ := p.idleThreadSize_ - 1 }, .finished)
  else threadFuncLoop p threadid

/-- `ThreadPool::threadFunc`, one scheduling of the thread `threadid` standing at
`pc`: what it does until it next gives up the lock (or, after a task, the
`idleThreadSize_++` that brings it back to the top of the loop).  `status` and `dur`
are read only on return from `wait_for`. -/
def threadFunc (p : ThreadPool α) (threadid : Nat) (pc : WorkerAt α)
    (status : CvStatus) (dur : Int) : ThreadPool α × WorkerAt α :=
  match pc with
  | .loopTop => threadFuncLoop p threadid
  | .wait => threadFuncLoop p threadid
  | .waitFor => threadFuncWoken p threadid status dur
  | .exec _ => ({ p with idleThreadSize_ := p.idleThreadSize_ + 1 }, .loopTop)
  | .finished => (p, .finished)

/-- `ThreadPool::~ThreadPool`, its first statement `isPoolRunning_ = false`. -/
def shutdown (p : ThreadPool α) : ThreadPool α := { p with isPoolRunning_ := false }

end ThreadPool

/-! ## Executions of a pool -/

/-- A call of one of the three configuration setters. -/
inductive Setter where
  | setPoolMode (mode : PoolMode)
  | setTaskQueMaxThreshHold (threshHold : Int)
  | setThreadSizeThreshHold (threshHold : Int)
  deriving DecidableEq, Repr

/-- What happens to a started pool: a call of `submitTask`, a scheduling of the worker
thread `threadid` (with what `wait_for` returns and the idle time it measures, read
only when the thread returns from `wait_for`), or the destructor beginning. -/
inductive Event (α : Type) where
  | submitTask (sp : α)
  | worker (threadid : Nat) (status : CvStatus) (dur : Int)
  | shutdown

/-- A pool with its worker threads: `pc t` is where the thread with id `t` stands (it
is alive exactly while `t` is registered: `Thread::start` follows the registration
and the thread returns right after erasing its entry), `accepted` the tasks enqueued
so far and `dequeued` the tasks taken from the queue so far, both in order. -/
structure Sys (α : Type) where
  pool : ThreadPool α
  pc : Nat → WorkerAt α
  accepted : List α
  dequeued : List α

namespace Sys

variable {α : Type}

/-- A constructed pool after the given calls of the setters. -/
def configure (generateId : Nat) (cfg : List Setter) : ThreadPool α :=
  cfg.foldl (fun p c =>
    match c with
    | .setPoolMode mode => p.setPoolMode mode
    | .setTaskQueMaxThreshHold n => p.setTaskQueMaxThreshHold n
    | .setThreadSizeThreshHold n => p.setThreadSizeThreshHold n) (ThreadPool.new generateId)

/-- The pool `p` right after `start(k)`: every started thread is at the top of its
loop, nothing has been submitted. -/
def boot (p : ThreadPool α) (k : Nat) : Sys α :=
  { pool := p.start k, pc := fun _ => .loopTop, accepted := [], dequeued := [] }

/-- One event. -/
def step (s : Sys α) (e : Event α) : Sys α :=
  match e with
  | .submitTask sp =>
    let r := s.pool.submitTask sp
    { pool := r.2
      pc := if r.2.threads_.length = s.pool.threads_.length then s.pc
            else Function.update s.pc s.pool.generateId_ .loopTop
      accepted := if r.1 then s.accepted ++ [sp] else s.accepted
      dequeued := s.dequeued }
  | .worker threadid status dur =>
    if threadid ∈ s.pool.threads_ then
      let r := s.pool.threadFunc threadid (s.pc threadid) status dur
      { pool := r.1
        pc := Function.update s.pc threadid r.2
        accepted := s.accepted
        dequeued :=
          match r.2 with
          | .exec task => s.dequeued ++ [task]
          | _ => s.dequeued }
    else s
  | .shutdown => { s with pool := s.pool.shutdown }

/-- A sequence of events. -/
def run (s : Sys α) (es : List (Event α)) : Sys α := es.foldl step s

end Sys

/-! ## Invariants -/

/-- The thread does not stand inside a task: it is what `idleThreadSize_` counts. -/
def WorkerAt.isIdle {α : Type} (w : WorkerAt α) : Bool :=
  match w with
  | .exec _ => false
  | _ => true

/-- The number of registered threads that are not executing a task. -/
def Sys.waiting {α : Type} (s : Sys α) : Nat :=
  s.pool.threads_.countP (fun t => (s.pc t).isIdle)

/-- What holds of the pool data in every state of a pool started with `start(k)` in
mode `mode` with thread threshold `T`: the ids in the registry are distinct and
below the id counter, the configuration is unchanged, the registry is no larger
than `curThreadsSize_`, and `curThreadsSize_` lies between `k` and the larger of `k`
and `T`. -/
structure ThreadPool.Inv {α : Type} (k : Nat) (mode : PoolMode) (T : Int)
    (p : ThreadPool α) : Prop where
  nodup : p.threads_.Nodup
  fresh : ∀ t ∈ p.threads_, t < p.generateId_
  init : p.initThreadsSize_ = k
  mode : p.poolMode_ = mode
  thresh : p.threadSizeThreshHOld_ = T
  reg_le : (p.threads_.length : Int) ≤ p.curThreadsSize_
  lower : (k : Int) ≤ p.curThreadsSize_
  upper : p.curThreadsSize_ ≤ max (k : Int) T

/-- What holds of a pool with its threads: the invariant of the pool data; the
surplus of `idleThreadSize_` over the registered threads not executing equals the
surplus of `curThreadsSize_` over the registry (both count the threads that left on
shutdown); and the accepted tasks are the dequeued ones followed by the queue. -/
structure Sys.Inv {α : Type} (k : Nat) (mode : PoolMode) (T : Int) (s : Sys α) : Prop where
  pool : s.pool.Inv k mode T
  idle : s.pool.curThreadsSize_ - s.pool.threads_.length
      = s.pool.idleThreadSize_ - s.waiting
  fifo : s.accepted = s.dequeued ++ s.pool.taskQue_

/-- A Cached pool with the default thresholds, started with `start(1)`, after one
accepted submission. -/
def demoCached : ThreadPool Nat :=
  ((Sys.boot (Sys.configure 0 [.setPoolMode .MODE_CACHED] : ThreadPool Nat) 1).run
    [.submitTask 5]).pool

/-- The event is the destructor beginning. -/
def Event.isShutdown {α : Type} (e : Event α) : Bool :=
  match e with
  | .shutdown => true
  | _ => false

/-! ## A concrete family of types, for evaluation -/

/-- Four C++ types used by the demonstration programs. -/
inductive CppType where
  | int
  | ulonglong
  | string
  | cstring
  deriving DecidableEq, Repr

instance : CppTypes CppType where
  val := fun T =>
    match T with
    | .int => Int
    | .ulonglong => Nat
    | .string => String
    | .cstring => String
  cstring := .cstring
  emptyLiteral := ""

/-! ## Any, Semaphore, Result, Task: the value handoff -/

section Handoff

variable {τ : Type} [CppTypes τ]

/-- C3: `Any(v).cast<T>()` returns `v` for `v` of type `T`, and `Any(v).cast<U>()`
throws `std::bad_cast` for every type `U` other than `T`. -/
theorem Any.cast_ofData [DecidableEq τ] (T : τ) (v : CppTypes.val T) :
    (Any.ofData T v).cast T = .ok v ∧
      ∀ U : τ, U ≠ T → (Any.ofData T v).cast U = .error .bad_cast := by
  refine ⟨by simp [Any.cast, Any.ofData], fun U hU => ?_⟩
  have hTU : ¬ T = U := fun h => hU h.symm
  simp [Any.cast, Any.ofData, hTU]

/-- C3 at a string: `cast<string>()` gives the string back and `cast<int>()` throws. -/
theorem Any.cast_ofData_string_int :
    (Any.ofData CppType.string "abc").cast CppType.string = .ok "abc" ∧
      CppType.int ≠ CppType.string ∧
      (Any.ofData CppType.string "abc").cast CppType.int = .error .bad_cast :=
  ⟨(Any.cast_ofData CppType.string "abc").1, by decide,
    (Any.cast_ofData CppType.string "abc").2 CppType.int (by decide)⟩

/-- C4: for a task bound to a valid result whose semaphore count is 0, `exec()` stores
the value of `run()` in the result and raises the count to 1; `get()` on that
result then returns, lowers the count to 0 and yields an `Any` holding the same
value with the same type. -/
theorem Task.exec_then_get [DecidableEq τ] (t : Task τ) (r : Result τ) (T : τ)
    (v : CppTypes.val T) (hbound : t.result_ = some r) (hvalid : r.isValid_ = true)
    (hexit : r.sem_.isExit_ = false) (hcount : r.sem_.resLimit_ = 0)
    (hrun : t.run = Any.ofData T v) :
    ∃ r1 r2 : Result τ, t.exec.result_ = some r1 ∧ r1.any_ = Any.ofData T v ∧
      r1.sem_.resLimit_ = 1 ∧ r1.get = some (Any.ofData T v, r2) ∧
      r2.sem_.resLimit_ = 0 ∧ (Any.ofData T v).cast T = .ok v := by
  refine ⟨r.setVal t.run, { r with any_ := Any.empty, sem_ := ⟨0, false⟩ }, ?_, ?_, ?_, ?_, ?_, ?_⟩
  · simp [Task.exec, hbound]
  · simp [Result.setVal, hrun]
  · simp [Result.setVal, Semaphore.post, hexit, hcount]
  · simp [Result.get, Result.setVal, Semaphore.post, Semaphore.wait, hexit, hcount, hvalid, hrun]
  · rfl
  · simp [Any.cast, Any.ofData]

/-- C4 at the task returning the `unsigned long long` 55, bound to a fresh valid
result. -/
theorem Task.exec_then_get_sum :
    ((Result.new true : Result CppType).isValid_ = true ∧
      (Result.new true : Result CppType).sem_.isExit_ = false ∧
      (Result.new true : Result CppType).sem_.resLimit_ = 0) ∧
    ∃ r1 r2 : Result CppType,
      (Task.mk (Any.ofData CppType.ulonglong (55 : Nat)) (some (Result.new true))).exec.result_
          = some r1 ∧
      r1.any_ = Any.ofData CppType.ulonglong (55 : Nat) ∧
      r1.sem_.resLimit_ = 1 ∧
      r1.get = some (Any.ofData CppType.ulonglong (55 : Nat), r2) ∧
      r2.sem_.resLimit_ = 0 ∧
      (Any.ofData CppType.ulonglong (55 : Nat)).cast CppType.ulonglong = .ok (55 : Nat) :=
  ⟨⟨rfl, rfl, rfl⟩,
    Task.exec_then_get (Task.mk (Any.ofData CppType.ulonglong (55 : Nat)) (some (Result.new true)))
      (Result.new true) CppType.ulonglong (55 : Nat) rfl rfl rfl rfl rfl⟩

/-- C5 as stated fails: on a fresh valid result with `setVal(7)` called once, there is
no pair of calls of `get()` of which the first returns 7 and the second returns an
empty `Any`; the second call blocks. -/
theorem Result.second_get_returns_nothing :
    ¬ ∃ r1 r2 : Result CppType,
        ((Result.new true).setVal (Any.ofData CppType.int (7 : Int))).get
            = some (Any.ofData CppType.int (7 : Int), r1) ∧
        r1.get = some (Any.empty, r2) := by
  rintro ⟨r1, r2, h1, h2⟩
  simp [Result.get, Result.setVal, Result.new, Semaphore.new, Semaphore.post,
    Semaphore.wait] at h1
  subst h1
  simp [Result.get, Semaphore.wait] at h2

/-- C5, amended: on a valid result whose semaphore count is 0, after one `setVal(v)`
the first `get()` returns `v` and leaves the value slot empty and the count at 0;
a second `get()` then does not return: it blocks in `Semaphore::wait`. -/
theorem Result.get_twice (r : Result τ) (a : Any τ) (hvalid : r.isValid_ = true)
    (hexit : r.sem_.isExit_ = false) (hcount : r.sem_.resLimit_ = 0) :
    ∃ r1 : Result τ, (r.setVal a).get = some (a, r1) ∧ r1.any_ = Any.empty ∧
      r1.sem_.resLimit_ = 0 ∧ r1.get = none := by
  refine ⟨{ r with any_ := Any.empty, sem_ := ⟨0, false⟩ }, ?_, rfl, rfl, ?_⟩
  · simp [Result.get, Result.setVal, Semaphore.post, Semaphore.wait, hexit, hcount, hvalid]
  · simp [Result.get, Semaphore.wait, hvalid]

/-- C5, amended, at a fresh valid result and the `int` 7. -/
theorem Result.get_twice_seven :
    ((Result.new true : Result CppType).isValid_ = true ∧
      (Result.new true : Result CppType).sem_.isExit_ = false ∧
      (Result.new true : Result CppType).sem_.resLimit_ = 0) ∧
    ∃ r1 : Result CppType,
      ((Result.new true).setVal (Any.ofData CppType.int (7 : Int))).get
          = some (Any.ofData CppType.int (7 : Int), r1) ∧
      r1.any_ = Any.empty ∧ r1.sem_.resLimit_ = 0 ∧ r1.get = none :=
  ⟨⟨rfl, rfl, rfl⟩,
    Result.get_twice (Result.new true) (Any.ofData CppType.int (7 : Int)) rfl rfl rfl⟩

end Handoff

/-! ## Machine integers: the conversions on the values that occur -/

theorem toSizeT_le (x : Int) (hx : 0 ≤ x) : (toSizeT x : Int) ≤ x := by
  unfold toSizeT
  have h : (2 : Int) ^ 64 = 18446744073709551616 := by norm_num
  rw [h]
  omega

theorem toUInt_eq (x : Int) (hx : 0 ≤ x) (hx2 : x ≤ INT_MAX) : (toUInt x : Int) = x := by
  unfold toUInt
  unfold INT_MAX at hx2
  have h : (2 : Int) ^ 32 = 4294967296 := by norm_num
  have h2 : (2 : Int) ^ 31 = 2147483648 := by norm_num
  rw [h]
  rw [h2] at hx2
  omega

/-! ## submitTask on a full queue -/

section Submit

variable {α : Type}

/-- C2 as stated fails: after `setTaskQueMaxThreshHold(-1)` the empty queue holds at
least `taskQueMaxThreshHold_` tasks, yet `submitTask` returns a valid result and
enqueues the task (the threshold is compared as a `size_t`). -/
theorem ThreadPool.submitTask_negative_threshold :
    (((ThreadPool.new 0 : ThreadPool Nat).setTaskQueMaxThreshHold (-1)).taskQueMaxThreshHold_
        ≤ ((((ThreadPool.new 0 : ThreadPool Nat).setTaskQueMaxThreshHold (-1)).taskQue_.length
            : Nat) : Int)) ∧
      (((ThreadPool.new 0 : ThreadPool Nat).setTaskQueMaxThreshHold (-1)).submitTask 7).1 = true ∧
      (((ThreadPool.new 0 : ThreadPool Nat).setTaskQueMaxThreshHold (-1)).submitTask 7).2.taskQue_
        = [7] ∧
      ¬ ((((ThreadPool.new 0 : ThreadPool Nat).setTaskQueMaxThreshHold (-1)).submitTask 7).1
          = false ∧
        (((ThreadPool.new 0 : ThreadPool Nat).setTaskQueMaxThreshHold (-1)).submitTask 7).2.taskQue_
          = ((ThreadPool.new 0 : ThreadPool Nat).setTaskQueMaxThreshHold (-1)).taskQue_) := by
  refine ⟨by decide, by decide, by decide, by decide⟩

/-- C2, amended: in every pool state whose queue threshold is non-negative and whose
queue holds at least that many tasks when `wait_for` gives up, `submitTask` returns
a result with validity flag false and leaves the whole pool state (queue, counts,
registry) as it was. -/
theorem ThreadPool.submitTask_full (p : ThreadPool α) (sp : α)
    (hnonneg : 0 ≤ p.taskQueMaxThreshHold_)
    (hfull : p.taskQueMaxThreshHold_ ≤ (p.taskQue_.length : Int)) :
    p.submitTask sp = (false, p) := by
  have h := toSizeT_le p.taskQueMaxThreshHold_ hnonneg
  have hnf : p.notFull = false := by
    simp only [ThreadPool.notFull, decide_eq_false_iff_not, not_lt]
    omega
  simp [ThreadPool.submitTask, hnf]

/-- C2, amended, at capacity 2 with two queued tasks. -/
theorem ThreadPool.submitTask_full_two :
    (0 : Int) ≤ 2 ∧ (2 : Int) ≤ (([5, 6] : List Nat).length : Int) ∧
      ({ (ThreadPool.new 0 : ThreadPool Nat) with
          taskQue_ := [5, 6], taskSize_ := 2, taskQueMaxThreshHold_ := 2 }).submitTask 7
        = (false, { (ThreadPool.new 0 : ThreadPool Nat) with
          taskQue_ := [5, 6], taskSize_ := 2, taskQueMaxThreshHold_ := 2 }) :=
  ⟨by decide, by decide,
    ThreadPool.submitTask_full _ 7 (by decide) (by decide)⟩

end Submit

/-! ## The invariant of the pool data -/

section PoolInvariant

variable {α : Type}

theorem ThreadPool.emplaceThread_threads (p : ThreadPool α)
    (hfresh : ∀ t ∈ p.threads_, t < p.generateId_) :
    p.emplaceThread.threads_ = p.threads_ ++ [p.generateId_] := by
  have h : p.generateId_ ∉ p.threads_ := fun hm => Nat.lt_irrefl _ (hfresh _ hm)
  simp [ThreadPool.emplaceThread, h]

theorem ThreadPool.emplaceThread_nodup (p : ThreadPool α) (hnodup : p.threads_.Nodup)
    (hfresh : ∀ t ∈ p.threads_, t < p.generateId_) :
    p.emplaceThread.threads_.Nodup ∧
      ∀ t ∈ p.emplaceThread.threads_, t < p.emplaceThread.generateId_ := by
  have h : p.generateId_ ∉ p.threads_ := fun hm => Nat.lt_irrefl _ (hfresh _ hm)
  rw [ThreadPool.emplaceThread_threads p hfresh]
  refine ⟨?_, ?_⟩
  · rw [List.nodup_append]
    refine ⟨hnodup, List.nodup_singleton _, ?_⟩
    intro a ha hb
    rw [List.mem_singleton] at hb
    exact h (hb ▸ ha)
  · intro t ht
    rw [List.mem_append, List.mem_singleton] at ht
    have hg : p.emplaceThread.generateId_ = p.generateId_ + 1 := rfl
    rw [hg]
    rcases ht with ht | ht
    · exact Nat.lt_succ_of_lt (hfresh t ht)
    · omega

theorem ThreadPool.submitTask_inv {k : Nat} {mode : PoolMode} {T : Int} (p : ThreadPool α)
    (sp : α) (h : p.Inv k mode T) : (p.submitTask sp).2.Inv k mode T := by
  unfold ThreadPool.submitTask
  split
  · exact h
  · split
    · rename_i hgrow
      simp only [ThreadPool.needsThread, Bool.and_eq_true, decide_eq_true_eq] at hgrow
      obtain ⟨⟨-, -⟩, hlt⟩ := hgrow
      have hfresh : ∀ t ∈ (p.enqueue sp).threads_, t < (p.enqueue sp).generateId_ := h.fresh
      have hnd := ThreadPool.emplaceThread_nodup _ h.nodup hfresh
      have hth := ThreadPool.emplaceThread_threads _ hfresh
      have hT := h.thresh
      have hlow := h.lower
      have hreg := h.reg_le
      have hlt2 : p.curThreadsSize_ < p.threadSizeThreshHOld_ := hlt
      refine ⟨hnd.1, hnd.2, h.init, h.mode, h.thresh, ?_, ?_, ?_⟩
      · show (((p.enqueue sp).emplaceThread).threads_.length : Int) ≤ p.curThreadsSize_ + 1
        rw [hth]
        simp only [List.length_append, List.length_singleton, Nat.cast_add, Nat.cast_one]
        show (p.threads_.length : Int) + 1 ≤ p.curThreadsSize_ + 1
        omega
      · show (k : Int) ≤ p.curThreadsSize_ + 1
        omega
      · show p.curThreadsSize_ + 1 ≤ max (k : Int) T
        have := le_max_right (k : Int) T
        omega
    · exact ⟨h.nodup, h.fresh, h.init, h.mode, h.thresh, h.reg_le, h.lower, h.upper⟩

theorem ThreadPool.threadFuncLoop_inv {k : Nat} {mode : PoolMode} {T : Int}
    (p : ThreadPool α) (threadid : Nat) (h : p.Inv k mode T) :
    (p.threadFuncLoop threadid).1.Inv k mode T := by
  unfold ThreadPool.threadFuncLoop
  split
  · split
    · refine ⟨h.nodup.erase _, ?_, h.init, h.mode, h.thresh, ?_, h.lower, h.upper⟩
      · intro t ht
        exact h.fresh t (List.mem_of_mem_erase ht)
      · have hle : (p.threads_.erase threadid).length ≤ p.threads_.length :=
          List.length_erase_le _ _
        have hreg := h.reg_le
        show ((p.threads_.erase threadid).length : Int) ≤ p.curThreadsSize_
        omega
    · split <;> exact h
  · exact ⟨h.nodup, h.fresh, h.init, h.mode, h.thresh, h.reg_le, h.lower, h.upper⟩

theorem ThreadPool.threadFunc_inv {k : Nat} {mode : PoolMode} {T : Int} (p : ThreadPool α)
    (threadid : Nat) (pc : WorkerAt α) (status : CvStatus) (dur : Int)
    (hmem : threadid ∈ p.threads_) (h : p.Inv k mode T) :
    (p.threadFunc threadid pc status dur).1.Inv k mode T := by
  cases pc with
  | loopTop => exact ThreadPool.threadFuncLoop_inv p threadid h
  | wait => exact ThreadPool.threadFuncLoop_inv p threadid h
  | waitFor =>
    show (p.threadFuncWoken threadid status dur).1.Inv k mode T
    unfold ThreadPool.threadFuncWoken
    split
    · rename_i hret
      obtain ⟨-, -, hgt⟩ := hret
      have hlow := h.lower
      have hconv := toSizeT_le p.curThreadsSize_ (by omega)
      have hinit := h.init
      have hup := h.upper
      have hreg := h.reg_le
      have hlen := List.length_erase_of_mem hmem
      have hpos : 0 < p.threads_.length := List.length_pos_of_mem hmem
      refine ⟨h.nodup.erase _, ?_, h.init, h.mode, h.thresh, ?_, ?_, ?_⟩
      · intro t ht
        exact h.fresh t (List.mem_of_mem_erase ht)
      · show ((p.threads_.erase threadid).length : Int) ≤ p.curThreadsSize_ - 1
        omega
      · show (k : Int) ≤ p.curThreadsSize_ - 1
        omega
      · show p.curThreadsSize_ - 1 ≤ max (k : Int) T
        omega
    · exact ThreadPool.threadFuncLoop_inv p threadid h
  | exec task => exact ⟨h.nodup, h.fresh, h.init, h.mode, h.thresh, h.reg_le, h.lower, h.upper⟩
  | finished => exact h

theorem ThreadPool.shutdown_inv {k : Nat} {mode : PoolMode} {T : Int} (p : ThreadPool α)
    (h : p.Inv k mode T) : p.shutdown.Inv k mode T :=
  ⟨h.nodup, h.fresh, h.init, h.mode, h.thresh, h.reg_le, h.lower, h.upper⟩

theorem ThreadPool.foldl_emplaceThread {β : Type} (l : List β) (q : ThreadPool α)
    (hnodup : q.threads_.Nodup) (hfresh : ∀ t ∈ q.threads_, t < q.generateId_) :
    ∃ (ths : List Nat) (g : Nat),
      l.foldl (fun q _ => q.emplaceThread) q = { q with threads_ := ths, generateId_ := g } ∧
      ths.Nodup ∧ (∀ t ∈ ths, t < g) ∧ ths.length = q.threads_.length + l.length := by
  induction l generalizing q with
  | nil => exact ⟨q.threads_, q.generateId_, rfl, hnodup, hfresh, by simp⟩
  | cons b l ih =>
    obtain ⟨h1, h2⟩ := ThreadPool.emplaceThread_nodup q hnodup hfresh
    obtain ⟨ths, g, he, hn, hf, hl⟩ := ih q.emplaceThread h1 h2
    refine ⟨ths, g, ?_, hn, hf, ?_⟩
    · rw [List.foldl_cons, he]
      rfl
    · have hth := congrArg List.length (ThreadPool.emplaceThread_threads q hfresh)
      rw [List.length_append, List.length_singleton] at hth
      rw [hl, hth, List.length_cons]
      omega

/-- The state right after `start(k)` on a pool with an empty registry. -/
theorem ThreadPool.start_spec (p : ThreadPool α) (k : Nat) (hempty : p.threads_ = []) :
    (p.start k).Inv k p.poolMode_ p.threadSizeThreshHOld_ ∧
      (p.start k).threads_.length = k ∧ (p.start k).curThreadsSize_ = k ∧
      (p.start k).idleThreadSize_ = p.idleThreadSize_ + k ∧
      (p.start k).taskQue_ = p.taskQue_ ∧ (p.start k).isPoolRunning_ = true := by
  obtain ⟨ths, g, he, hn, hf, hl⟩ := ThreadPool.foldl_emplaceThread (List.range k)
    ({ p with isPoolRunning_ := true, initThreadsSize_ := k, curThreadsSize_ := k })
    (by simp [hempty]) (by simp [hempty])
  have hlen : ths.length = k := by
    rw [hl]
    simp [hempty]
  have hs : p.start k = { p with
      isPoolRunning_ := true, initThreadsSize_ := k, curThreadsSize_ := k, threads_ := ths,
      generateId_ := g, idleThreadSize_ := p.idleThreadSize_ + ths.length } := by
    unfold ThreadPool.start
    dsimp only
    rw [he]
  rw [hs]
  refine ⟨⟨hn, hf, rfl, rfl, rfl, ?_, ?_, ?_⟩, hlen, rfl, ?_, rfl, rfl⟩
  · show (ths.length : Int) ≤ (k : Int)
    omega
  · show (k : Int) ≤ (k : Int)
    exact le_refl _
  · show (k : Int) ≤ max (k : Int) p.threadSizeThreshHOld_
    exact le_max_left _ _
  · show p.idleThreadSize_ + (ths.length : Int) = p.idleThreadSize_ + k
    rw [hlen]

/-- A pool that was only constructed and configured: nothing registered, nothing
queued, no thread counted idle, not running. -/
theorem Sys.configure_spec (g : Nat) (cfg : List Setter) :
    (Sys.configure g cfg : ThreadPool α).threads_ = [] ∧
      (Sys.configure g cfg : ThreadPool α).taskQue_ = [] ∧
      (Sys.configure g cfg : ThreadPool α).idleThreadSize_ = 0 := by
  unfold Sys.configure
  have key : ∀ (l : List Setter) (p : ThreadPool α),
      p.threads_ = [] ∧ p.taskQue_ = [] ∧ p.idleThreadSize_ = 0 →
      (l.foldl (fun p c =>
        match c with
        | .setPoolMode mode => p.setPoolMode mode
        | .setTaskQueMaxThreshHold n => p.setTaskQueMaxThreshHold n
        | .setThreadSizeThreshHold n => p.setThreadSizeThreshHold n) p).threads_ = [] ∧
      (l.foldl (fun p c =>
        match c with
        | .setPoolMode mode => p.setPoolMode mode
        | .setTaskQueMaxThreshHold n => p.setTaskQueMaxThreshHold n
        | .setThreadSizeThreshHold n => p.setThreadSizeThreshHold n) p).taskQue_ = [] ∧
      (l.foldl (fun p c =>
        match c with
        | .setPoolMode mode => p.setPoolMode mode
        | .setTaskQueMaxThreshHold n => p.setTaskQueMaxThreshHold n
        | .setThreadSizeThreshHold n => p.setThreadSizeThreshHold n) p).idleThreadSize_ = 0 := by
    intro l
    induction l with
    | nil => intro p hp; exact hp
    | cons c l ih =>
      intro p hp
      rw [List.foldl_cons]
      apply ih
      obtain ⟨h1, h2, h3⟩ := hp
      cases c with
      | setPoolMode mode =>
        simp only [ThreadPool.setPoolMode]
        split <;> exact ⟨h1, h2, h3⟩
      | setTaskQueMaxThreshHold n =>
        simp only [ThreadPool.setTaskQueMaxThreshHold]
        split <;> exact ⟨h1, h2, h3⟩
      | setThreadSizeThreshHold n =>
        simp only [ThreadPool.setThreadSizeThreshHold]
        split
        · exact ⟨h1, h2, h3⟩
        · split <;> exact ⟨h1, h2, h3⟩
  exact key cfg _ ⟨rfl, rfl, rfl⟩

end PoolInvariant

/-! ## Counting the idle threads -/

section Counting

variable {α : Type}

theorem countP_update_of_not_mem (q : WorkerAt α → Bool) (pc : Nat → WorkerAt α) (tid : Nat)
    (v : WorkerAt α) (l : List Nat) (h : tid ∉ l) :
    l.countP (fun t => q (Function.update pc tid v t)) = l.countP (fun t => q (pc t)) := by
  apply List.countP_congr
  intro t ht
  have hne : t ≠ tid := fun he => h (he ▸ ht)
  simp [Function.update_noteq hne]

theorem countP_erase_add (q : Nat → Bool) (tid : Nat) (l : List Nat) (h : tid ∈ l) :
    (l.erase tid).countP q + (if q tid then 1 else 0) = l.countP q := by
  have hp := (List.perm_cons_erase h).countP_eq q
  rw [hp, List.countP_cons]

theorem countP_update_of_mem (q : WorkerAt α → Bool) (pc : Nat → WorkerAt α) (tid : Nat)
    (v : WorkerAt α) (l : List Nat) (hnodup : l.Nodup) (h : tid ∈ l) :
    l.countP (fun t => q (Function.update pc tid v t)) + (if q (pc tid) then 1 else 0)
      = l.countP (fun t => q (pc t)) + (if q v then 1 else 0) := by
  have h1 : (l.erase tid).countP (fun t => q (Function.update pc tid v t))
      + (if q v then 1 else 0) = l.countP (fun t => q (Function.update pc tid v t)) := by
    have h := countP_erase_add (fun t => q (Function.update pc tid v t)) tid l h
    simpa using h
  have h2 : (l.erase tid).countP (fun t => q (pc t)) + (if q (pc tid) then 1 else 0)
      = l.countP (fun t => q (pc t)) := countP_erase_add (fun t => q (pc t)) tid l h
  have h3 := countP_update_of_not_mem q pc tid v (l.erase tid) (hnodup.not_mem_erase)
  rw [h3] at h1
  omega

end Counting

/-! ## The invariant of a pool with its threads -/

section SysInvariant

variable {α : Type}

theorem Sys.boot_inv (p : ThreadPool α) (k : Nat) (hthreads : p.threads_ = [])
    (hque : p.taskQue_ = []) (hidle : p.idleThreadSize_ = 0) :
    (Sys.boot p k).Inv k p.poolMode_ p.threadSizeThreshHOld_ := by
  obtain ⟨hinv, hlen, hcur, hid, hq, -⟩ := ThreadPool.start_spec p k hthreads
  refine ⟨hinv, ?_, ?_⟩
  · have hw : (Sys.boot p k).waiting = k := by
      simp [Sys.waiting, Sys.boot, WorkerAt.isIdle, hlen]
    rw [hw]
    show (p.start k).curThreadsSize_ - ((p.start k).threads_.length : Int)
      = (p.start k).idleThreadSize_ - (k : Int)
    rw [hcur, hlen, hid, hidle]
    omega
  · show ([] : List α) = [] ++ (p.start k).taskQue_
    rw [hq, hque]
    rfl

theorem Sys.step_submitTask_inv {k : Nat} {mode : PoolMode} {T : Int} (s : Sys α) (sp : α)
    (h : s.Inv k mode T) : (s.step (.submitTask sp)).Inv k mode T := by
  have hpool := ThreadPool.submitTask_inv s.pool sp h.pool
  by_cases hnf : s.pool.notFull = true
  · by_cases hgrow : (s.pool.enqueue sp).needsThread = true
    · have hr : s.pool.submitTask sp = (true, (s.pool.enqueue sp).addThread) := by
        simp [ThreadPool.submitTask, hnf, hgrow]
      have hfresh : ∀ t ∈ (s.pool.enqueue sp).threads_, t < (s.pool.enqueue sp).generateId_ :=
        h.pool.fresh
      have hth : (s.pool.enqueue sp).addThread.threads_ = s.pool.threads_ ++ [s.pool.generateId_] :=
        ThreadPool.emplaceThread_threads _ hfresh
      have hnot : s.pool.generateId_ ∉ s.pool.threads_ :=
        fun hm => Nat.lt_irrefl _ (h.pool.fresh _ hm)
      have hstep : s.step (.submitTask sp) =
          { pool := (s.pool.enqueue sp).addThread
            pc := Function.update s.pc s.pool.generateId_ .loopTop
            accepted := s.accepted ++ [sp]
            dequeued := s.dequeued } := by
        simp [Sys.step, hr, hth]
      rw [hstep]
      rw [hr] at hpool
      refine ⟨hpool, ?_, ?_⟩
      · have hw : (List.countP (fun t => (Function.update s.pc s.pool.generateId_
            WorkerAt.loopTop t).isIdle) (s.pool.threads_ ++ [s.pool.generateId_]))
            = s.waiting + 1 := by
          rw [List.countP_append,
            countP_update_of_not_mem WorkerAt.isIdle s.pc _ _ _ hnot]
          simp [Sys.waiting, WorkerAt.isIdle]
        have hi := h.idle
        show (s.pool.curThreadsSize_ + 1) - (((s.pool.enqueue sp).addThread.threads_.length : Nat) : Int)
          = (s.pool.idleThreadSize_ + 1) -
            ((List.countP (fun t => (Function.update s.pc s.pool.generateId_
              WorkerAt.loopTop t).isIdle) (s.pool.enqueue sp).addThread.threads_ : Nat) : Int)
        rw [hth, hw, List.length_append, List.length_singleton]
        push_cast
        omega
      · show s.accepted ++ [sp] = s.dequeued ++ (s.pool.taskQue_ ++ [sp])
        rw [h.fifo, List.append_assoc]
    · have hr : s.pool.submitTask sp = (true, s.pool.enqueue sp) := by
        simp [ThreadPool.submitTask, hnf, hgrow]
      have hstep : s.step (.submitTask sp) =
          { pool := s.pool.enqueue sp
            pc := s.pc
            accepted := s.accepted ++ [sp]
            dequeued := s.dequeued } := by
        simp [Sys.step, hr, ThreadPool.enqueue]
      rw [hstep]
      rw [hr] at hpool
      refine ⟨hpool, h.idle, ?_⟩
      show s.accepted ++ [sp] = s.dequeued ++ (s.pool.taskQue_ ++ [sp])
      rw [h.fifo, List.append_assoc]
  · have hr : s.pool.submitTask sp = (false, s.pool) := by
      simp [ThreadPool.submitTask, hnf]
    have hstep : s.step (.submitTask sp) = s := by
      simp [Sys.step, hr]
    rw [hstep]
    exact h

/-- The number of idle registered threads after the thread `tid` moved to `v`. -/
theorem Sys.countP_move (s : Sys α) (tid : Nat) (v : WorkerAt α)
    (hnodup : s.pool.threads_.Nodup) (hmem : tid ∈ s.pool.threads_) :
    List.countP (fun t => (Function.update s.pc tid v t).isIdle) s.pool.threads_
        + (if (s.pc tid).isIdle then 1 else 0)
      = s.waiting + (if v.isIdle then 1 else 0) :=
  countP_update_of_mem WorkerAt.isIdle s.pc tid v s.pool.threads_ hnodup hmem

/-- The number of idle registered threads after the thread `tid` left the registry. -/
theorem Sys.countP_leave (s : Sys α) (tid : Nat) (v : WorkerAt α)
    (hnodup : s.pool.threads_.Nodup) (hmem : tid ∈ s.pool.threads_) :
    List.countP (fun t => (Function.update s.pc tid v t).isIdle) (s.pool.threads_.erase tid)
        + (if (s.pc tid).isIdle then 1 else 0)
      = s.waiting := by
  rw [countP_update_of_not_mem WorkerAt.isIdle s.pc tid v _ hnodup.not_mem_erase]
  exact countP_erase_add (fun t => (s.pc t).isIdle) tid s.pool.threads_ hmem

theorem Sys.loop_inv {k : Nat} {mode : PoolMode} {T : Int} (s : Sys α) (tid : Nat)
    (h : s.Inv k mode T) (hmem : tid ∈ s.pool.threads_) (hidle : (s.pc tid).isIdle = true) :
    Sys.Inv k mode T
      { pool := (s.pool.threadFuncLoop tid).1
        pc := Function.update s.pc tid (s.pool.threadFuncLoop tid).2
        accepted := s.accepted
        dequeued :=
          match (s.pool.threadFuncLoop tid).2 with
          | .exec task => s.dequeued ++ [task]
          | _ => s.dequeued } := by
  have hpool := ThreadPool.threadFuncLoop_inv s.pool tid h.pool
  have hi := h.idle
  have hf := h.fifo
  have hlen := List.length_erase_of_mem hmem
  have hpos : 0 < s.pool.threads_.length := List.length_pos_of_mem hmem
  cases hq : s.pool.taskQue_ with
  | nil =>
    by_cases hrun : s.pool.isPoolRunning_ = true
    · by_cases hm : s.pool.poolMode_ = .MODE_CACHED
      · have hr : s.pool.threadFuncLoop tid = (s.pool, .waitFor) := by
          simp [ThreadPool.threadFuncLoop, hq, hrun, hm]
        have hc := Sys.countP_move s tid .waitFor h.pool.nodup hmem
        rw [hr] at hpool ⊢
        refine ⟨hpool, ?_, hf⟩
        rw [if_pos hidle, if_pos (show (WorkerAt.waitFor : WorkerAt α).isIdle = true from rfl)] at hc
        show s.pool.curThreadsSize_ - (s.pool.threads_.length : Int) = s.pool.idleThreadSize_ -
          ((List.countP (fun t => (Function.update s.pc tid WorkerAt.waitFor t).isIdle)
            s.pool.threads_ : Nat) : Int)
        omega
      · have hr : s.pool.threadFuncLoop tid = (s.pool, .wait) := by
          simp [ThreadPool.threadFuncLoop, hq, hrun, hm]
        have hc := Sys.countP_move s tid .wait h.pool.nodup hmem
        rw [hr] at hpool ⊢
        refine ⟨hpool, ?_, hf⟩
        rw [if_pos hidle, if_pos (show (WorkerAt.wait : WorkerAt α).isIdle = true from rfl)] at hc
        show s.pool.curThreadsSize_ - (s.pool.threads_.length : Int) = s.pool.idleThreadSize_ -
          ((List.countP (fun t => (Function.update s.pc tid WorkerAt.wait t).isIdle)
            s.pool.threads_ : Nat) : Int)
        omega
    · have hr : s.pool.threadFuncLoop tid
          = ({ s.pool with threads_ := s.pool.threads_.erase tid }, .finished) := by
        simp [ThreadPool.threadFuncLoop, hq, hrun]
      have hc := Sys.countP_leave s tid .finished h.pool.nodup hmem
      rw [hr] at hpool ⊢
      refine ⟨hpool, ?_, ?_⟩
      · rw [if_pos hidle] at hc
        show s.pool.curThreadsSize_ - ((s.pool.threads_.erase tid).length : Int)
          = s.pool.idleThreadSize_ -
            ((List.countP (fun t => (Function.update s.pc tid WorkerAt.finished t).isIdle)
              (s.pool.threads_.erase tid) : Nat) : Int)
        omega
      · exact hf
  | cons task rest =>
    have hr : s.pool.threadFuncLoop tid
        = ({ s.pool with idleThreadSize_ := s.pool.idleThreadSize_ - 1
                         taskQue_ := rest
                         taskSize_ := uintDec s.pool.taskSize_ }, .exec task) := by
      simp [ThreadPool.threadFuncLoop, hq]
    have hc := Sys.countP_move s tid (.exec task) h.pool.nodup hmem
    rw [hr] at hpool ⊢
    refine ⟨hpool, ?_, ?_⟩
    · have hbusy : ¬ (WorkerAt.exec task).isIdle = true := by simp [WorkerAt.isIdle]
      rw [if_pos hidle, if_neg hbusy] at hc
      show s.pool.curThreadsSize_ - (s.pool.threads_.length : Int)
        = (s.pool.idleThreadSize_ - 1) -
          ((List.countP (fun t => (Function.update s.pc tid (WorkerAt.exec task) t).isIdle)
            s.pool.threads_ : Nat) : Int)
      omega
    · show s.accepted = (s.dequeued ++ [task]) ++ rest
      rw [hf, hq]
      simp

theorem Sys.step_worker_inv {k : Nat} {mode : PoolMode} {T : Int} (s : Sys α) (tid : Nat)
    (status : CvStatus) (dur : Int) (h : s.Inv k mode T) :
    (s.step (.worker tid status dur)).Inv k mode T := by
  by_cases hmem : tid ∈ s.pool.threads_
  · have hstep : s.step (.worker tid status dur) =
        { pool := (s.pool.threadFunc tid (s.pc tid) status dur).1
          pc := Function.update s.pc tid (s.pool.threadFunc tid (s.pc tid) status dur).2
          accepted := s.accepted
          dequeued :=
            match (s.pool.threadFunc tid (s.pc tid) status dur).2 with
            | .exec task => s.dequeued ++ [task]
            | _ => s.dequeued } := by
      simp [Sys.step, hmem]
    rw [hstep]
    have hi := h.idle
    have hlen := List.length_erase_of_mem hmem
    have hpos : 0 < s.pool.threads_.length := List.length_pos_of_mem hmem
    cases hpc : s.pc tid with
    | loopTop =>
      have hl := Sys.loop_inv s tid h hmem (by rw [hpc]; rfl)
      exact hl
    | wait =>
      have hl := Sys.loop_inv s tid h hmem (by rw [hpc]; rfl)
      exact hl
    | waitFor =>
      by_cases hret : status = .timeout ∧ dur ≥ THREAD_MAX_IDLE_TIME
          ∧ toSizeT s.pool.curThreadsSize_ > s.pool.initThreadsSize_
      · have hpool := ThreadPool.threadFunc_inv s.pool tid .waitFor status dur hmem h.pool
        have hr : s.pool.threadFunc tid .waitFor status dur
            = ({ s.pool with threads_ := s.pool.threads_.erase tid
                             curThreadsSize_ := s.pool.curThreadsSize_ - 1
                             idleThreadSize_ := s.pool.idleThreadSize_ - 1 }, .finished) := by
          simp only [ThreadPool.threadFunc, ThreadPool.threadFuncWoken, hret, and_self, if_true]
        have hc := Sys.countP_leave s tid .finished h.pool.nodup hmem
        rw [hr] at hpool ⊢
        refine ⟨hpool, ?_, h.fifo⟩
        have hidle : (s.pc tid).isIdle = true := by rw [hpc]; rfl
        rw [if_pos hidle] at hc
        show (s.pool.curThreadsSize_ - 1) - ((s.pool.threads_.erase tid).length : Int)
          = (s.pool.idleThreadSize_ - 1) -
            ((List.countP (fun t => (Function.update s.pc tid WorkerAt.finished t).isIdle)
              (s.pool.threads_.erase tid) : Nat) : Int)
        omega
      · have hr : s.pool.threadFunc tid .waitFor status dur = s.pool.threadFuncLoop tid := by
          simp only [ThreadPool.threadFunc, ThreadPool.threadFuncWoken, hret, if_false]
        rw [hr]
        exact Sys.loop_inv s tid h hmem (by rw [hpc]; rfl)
    | exec task =>
      have hc := Sys.countP_move s tid .loopTop h.pool.nodup hmem
      have hpool := ThreadPool.threadFunc_inv s.pool tid (.exec task) status dur hmem h.pool
      refine ⟨hpool, ?_, h.fifo⟩
      have hbusy : ¬ (s.pc tid).isIdle = true := by rw [hpc]; simp [WorkerAt.isIdle]
      rw [if_neg hbusy, if_pos (show (WorkerAt.loopTop : WorkerAt α).isIdle = true from rfl)] at hc
      show s.pool.curThreadsSize_ - (s.pool.threads_.length : Int)
        = (s.pool.idleThreadSize_ + 1) -
          ((List.countP (fun t => (Function.update s.pc tid WorkerAt.loopTop t).isIdle)
            s.pool.threads_ : Nat) : Int)
      omega
    | finished =>
      have hc := Sys.countP_move s tid .finished h.pool.nodup hmem
      refine ⟨h.pool, ?_, h.fifo⟩
      have hidle : (s.pc tid).isIdle = true := by rw [hpc]; rfl
      rw [if_pos hidle, if_pos (show (WorkerAt.finished : WorkerAt α).isIdle = true from rfl)] at hc
      show s.pool.curThreadsSize_ - (s.pool.threads_.length : Int)
        = s.pool.idleThreadSize_ -
          ((List.countP (fun t => (Function.update s.pc tid WorkerAt.finished t).isIdle)
            s.pool.threads_ : Nat) : Int)
      omega
  · have hstep : s.step (.worker tid status dur) = s := by
      simp [Sys.step, hmem]
    rw [hstep]
    exact h

theorem Sys.step_inv {k : Nat} {mode : PoolMode} {T : Int} (s : Sys α) (e : Event α)
    (h : s.Inv k mode T) : (s.step e).Inv k mode T := by
  cases e with
  | submitTask sp => exact Sys.step_submitTask_inv s sp h
  | worker tid status dur => exact Sys.step_worker_inv s tid status dur h
  | shutdown => exact ⟨ThreadPool.shutdown_inv s.pool h.pool, h.idle, h.fifo⟩

theorem Sys.run_inv {k : Nat} {mode : PoolMode} {T : Int} (es : List (Event α)) (s : Sys α)
    (h : s.Inv k mode T) : (s.run es).Inv k mode T := by
  induction es generalizing s with
  | nil => exact h
  | cons e es ih => exact ih (s.step e) (Sys.step_inv s e h)

/-- Every state of a pool that was constructed, configured, started with `start(k)`
and then went through any events satisfies the invariant. -/
theorem Sys.reachable_inv (g : Nat) (cfg : List Setter) (k : Nat) (es : List (Event α)) :
    ((Sys.boot (Sys.configure g cfg : ThreadPool α) k).run es).Inv k
      (Sys.configure g cfg : ThreadPool α).poolMode_
      (Sys.configure g cfg : ThreadPool α).threadSizeThreshHOld_ := by
  obtain ⟨h1, h2, h3⟩ := Sys.configure_spec (α := α) g cfg
  exact Sys.run_inv es _ (Sys.boot_inv _ k h1 h2 h3)

end SysInvariant

/-! ## The queue is first in, first out -/

section Claims

variable {α : Type}

/-- C1: in every state of a started pool, whatever calls of `submitTask` and worker
steps led to it, the sequence of tasks dequeued so far is a prefix of the sequence
of accepted tasks, in acceptance order; what remains of the accepted tasks is the
queue. -/
theorem Sys.dequeued_prefix_accepted (g : Nat) (cfg : List Setter) (k : Nat)
    (es : List (Event α)) :
    ((Sys.boot (Sys.configure g cfg : ThreadPool α) k).run es).dequeued
        <+: ((Sys.boot (Sys.configure g cfg : ThreadPool α) k).run es).accepted ∧
      ((Sys.boot (Sys.configure g cfg : ThreadPool α) k).run es).accepted
        = ((Sys.boot (Sys.configure g cfg : ThreadPool α) k).run es).dequeued
          ++ ((Sys.boot (Sys.configure g cfg : ThreadPool α) k).run es).pool.taskQue_ := by
  have h := (Sys.reachable_inv g cfg k es).fifo
  exact ⟨⟨_, h.symm⟩, h⟩

/-! ## The worker count under the Cached policy -/

/-- C6 as stated fails: a Cached pool with thread threshold 2 started with `start(4)`
has `curThreadsSize_` 4, above the threshold. -/
theorem Sys.cached_start_above_threshold :
    (Sys.configure 0 [.setPoolMode .MODE_CACHED, .setThreadSizeThreshHold 2]
        : ThreadPool Nat).poolMode_ = .MODE_CACHED ∧
      (Sys.configure 0 [.setPoolMode .MODE_CACHED, .setThreadSizeThreshHold 2]
        : ThreadPool Nat).threadSizeThreshHOld_ = 2 ∧
      ((Sys.boot (Sys.configure 0 [.setPoolMode .MODE_CACHED, .setThreadSizeThreshHold 2]
        : ThreadPool Nat) 4).run []).pool.curThreadsSize_ = 4 ∧
      ¬ ((Sys.boot (Sys.configure 0 [.setPoolMode .MODE_CACHED, .setThreadSizeThreshHold 2]
        : ThreadPool Nat) 4).run []).pool.curThreadsSize_ ≤ 2 := by
  refine ⟨by decide, by decide, by decide, by decide⟩

/-- C6, amended: for a pool set to the Cached policy with thread threshold `T` and
started with `start(k)`, in every state reached by calls of `submitTask` and worker
steps, `k <= curThreadsSize_ <= max(k, T)`; so `curThreadsSize_ <= T` whenever
`k <= T`. -/
theorem Sys.cached_worker_count_bounds (g : Nat) (cfg : List Setter) (k : Nat)
    (es : List (Event α))
    (_hmode : (Sys.configure g cfg : ThreadPool α).poolMode_ = .MODE_CACHED) :
    (k : Int) ≤ ((Sys.boot (Sys.configure g cfg : ThreadPool α) k).run es).pool.curThreadsSize_ ∧
      ((Sys.boot (Sys.configure g cfg : ThreadPool α) k).run es).pool.curThreadsSize_
        ≤ max (k : Int) (Sys.configure g cfg : ThreadPool α).threadSizeThreshHOld_ ∧
      ((k : Int) ≤ (Sys.configure g cfg : ThreadPool α).threadSizeThreshHOld_ →
        ((Sys.boot (Sys.configure g cfg : ThreadPool α) k).run es).pool.curThreadsSize_
          ≤ (Sys.configure g cfg : ThreadPool α).threadSizeThreshHOld_) := by
  have h := (Sys.reachable_inv g cfg k es).pool
  refine ⟨h.lower, h.upper, fun hk => ?_⟩
  have hu := h.upper
  rw [max_eq_right hk] at hu
  exact hu

/-- C6, amended, at a Cached pool with the default threshold 10 started with
`start(1)` after two submissions. -/
theorem Sys.cached_worker_count_bounds_burst :
    (Sys.configure 0 [.setPoolMode .MODE_CACHED] : ThreadPool Nat).poolMode_ = .MODE_CACHED ∧
      (((1 : Nat) : Int) ≤ ((Sys.boot (Sys.configure 0 [.setPoolMode .MODE_CACHED]
          : ThreadPool Nat) 1).run [.submitTask 5, .submitTask 6]).pool.curThreadsSize_ ∧
        ((Sys.boot (Sys.configure 0 [.setPoolMode .MODE_CACHED]
          : ThreadPool Nat) 1).run [.submitTask 5, .submitTask 6]).pool.curThreadsSize_
          ≤ max ((1 : Nat) : Int) (Sys.configure 0 [.setPoolMode .MODE_CACHED]
            : ThreadPool Nat).threadSizeThreshHOld_ ∧
        (((1 : Nat) : Int) ≤ (Sys.configure 0 [.setPoolMode .MODE_CACHED]
            : ThreadPool Nat).threadSizeThreshHOld_ →
          ((Sys.boot (Sys.configure 0 [.setPoolMode .MODE_CACHED]
            : ThreadPool Nat) 1).run [.submitTask 5, .submitTask 6]).pool.curThreadsSize_
            ≤ (Sys.configure 0 [.setPoolMode .MODE_CACHED]
              : ThreadPool Nat).threadSizeThreshHOld_)) :=
  ⟨by decide,
    Sys.cached_worker_count_bounds 0 [.setPoolMode .MODE_CACHED] 1
      [.submitTask 5, .submitTask 6] (by decide)⟩

/-! ## The worker count under the Fixed policy -/

/-- What holds of a running Fixed pool started with `start(k)`: the two worker counts
are `k` and no registered thread stands in `wait_for`. -/
theorem Sys.fixed_step (s : Sys α) (e : Event α) (k : Nat) (he : e.isShutdown = false)
    (h : s.pool.poolMode_ = .MODE_FIXED ∧ s.pool.isPoolRunning_ = true ∧
      s.pool.curThreadsSize_ = k ∧ s.pool.threads_.length = k ∧
      ∀ t ∈ s.pool.threads_, s.pc t ≠ .waitFor) :
    (s.step e).pool.poolMode_ = .MODE_FIXED ∧ (s.step e).pool.isPoolRunning_ = true ∧
      (s.step e).pool.curThreadsSize_ = k ∧ (s.step e).pool.threads_.length = k ∧
      ∀ t ∈ (s.step e).pool.threads_, (s.step e).pc t ≠ .waitFor := by
  obtain ⟨hmode, hrun, hcur, hlen, hpc⟩ := h
  have hupd : ∀ (tid : Nat) (v : WorkerAt α), v ≠ .waitFor →
      ∀ t ∈ s.pool.threads_, Function.update s.pc tid v t ≠ .waitFor := by
    intro tid v hv t ht
    by_cases htt : t = tid
    · rw [htt, Function.update_same]
      exact hv
    · rw [Function.update_noteq htt]
      exact hpc t ht
  cases e with
  | shutdown => simp [Event.isShutdown] at he
  | submitTask sp =>
    by_cases hnf : s.pool.notFull = true
    · have hgrow : (s.pool.enqueue sp).needsThread = false := by
        have hm : (s.pool.enqueue sp).poolMode_ = .MODE_FIXED := hmode
        simp [ThreadPool.needsThread, hm]
      have hr : s.pool.submitTask sp = (true, s.pool.enqueue sp) := by
        simp [ThreadPool.submitTask, hnf, hgrow]
      have hstep : s.step (.submitTask sp) =
          { pool := s.pool.enqueue sp
            pc := s.pc
            accepted := s.accepted ++ [sp]
            dequeued := s.dequeued } := by
        simp [Sys.step, hr, ThreadPool.enqueue]
      rw [hstep]
      exact ⟨hmode, hrun, hcur, hlen, hpc⟩
    · have hstep : s.step (.submitTask sp) = s := by
        simp [Sys.step, ThreadPool.submitTask, hnf]
      rw [hstep]
      exact ⟨hmode, hrun, hcur, hlen, hpc⟩
  | worker tid status dur =>
    by_cases hmem : tid ∈ s.pool.threads_
    · have hloop : (s.pool.threadFuncLoop tid).1.poolMode_ = .MODE_FIXED ∧
          (s.pool.threadFuncLoop tid).1.isPoolRunning_ = true ∧
          (s.pool.threadFuncLoop tid).1.curThreadsSize_ = k ∧
          (s.pool.threadFuncLoop tid).1.threads_ = s.pool.threads_ ∧
          (s.pool.threadFuncLoop tid).2 ≠ .waitFor := by
        cases hq : s.pool.taskQue_ with
        | nil => simp [ThreadPool.threadFuncLoop, hq, hrun, hmode, hcur]
        | cons task rest => simp [ThreadPool.threadFuncLoop, hq, hrun, hmode, hcur]
      have hstep : s.step (.worker tid status dur) =
          { pool := (s.pool.threadFunc tid (s.pc tid) status dur).1
            pc := Function.update s.pc tid (s.pool.threadFunc tid (s.pc tid) status dur).2
            accepted := s.accepted
            dequeued :=
              match (s.pool.threadFunc tid (s.pc tid) status dur).2 with
              | .exec task => s.dequeued ++ [task]
              | _ => s.dequeued } := by
        simp [Sys.step, hmem]
      rw [hstep]
      cases hw : s.pc tid with
      | loopTop =>
        obtain ⟨h1, h2, h3, h4, h5⟩ := hloop
        refine ⟨h1, h2, h3, ?_, ?_⟩
        · show (s.pool.threadFuncLoop tid).1.threads_.length = k
          rw [h4, hlen]
        · show ∀ t ∈ (s.pool.threadFuncLoop tid).1.threads_,
            Function.update s.pc tid (s.pool.threadFuncLoop tid).2 t ≠ .waitFor
          rw [h4]
          exact hupd tid _ h5
      | wait =>
        obtain ⟨h1, h2, h3, h4, h5⟩ := hloop
        refine ⟨h1, h2, h3, ?_, ?_⟩
        · show (s.pool.threadFuncLoop tid).1.threads_.length = k
          rw [h4, hlen]
        · show ∀ t ∈ (s.pool.threadFuncLoop tid).1.threads_,
            Function.update s.pc tid (s.pool.threadFuncLoop tid).2 t ≠ .waitFor
          rw [h4]
          exact hupd tid _ h5
      | waitFor => exact absurd hw (hpc tid hmem)
      | exec task =>
        exact ⟨hmode, hrun, hcur, hlen, hupd tid .loopTop (by simp)⟩
      | finished =>
        exact ⟨hmode, hrun, hcur, hlen, hupd tid .finished (by simp)⟩
    · have hstep : s.step (.worker tid status dur) = s := by
        simp [Sys.step, hmem]
      rw [hstep]
      exact ⟨hmode, hrun, hcur, hlen, hpc⟩

theorem Sys.fixed_run (es : List (Event α)) (s : Sys α) (k : Nat)
    (hes : ∀ e ∈ es, e.isShutdown = false)
    (h : s.pool.poolMode_ = .MODE_FIXED ∧ s.pool.isPoolRunning_ = true ∧
      s.pool.curThreadsSize_ = k ∧ s.pool.threads_.length = k ∧
      ∀ t ∈ s.pool.threads_, s.pc t ≠ .waitFor) :
    (s.run es).pool.poolMode_ = .MODE_FIXED ∧ (s.run es).pool.isPoolRunning_ = true ∧
      (s.run es).pool.curThreadsSize_ = k ∧ (s.run es).pool.threads_.length = k ∧
      ∀ t ∈ (s.run es).pool.threads_, (s.run es).pc t ≠ .waitFor := by
  induction es generalizing s with
  | nil => exact h
  | cons e es ih =>
    exact ih (s.step e) (fun e2 h2 => hes e2 (List.mem_cons_of_mem _ h2))
      (Sys.fixed_step s e k (hes e (List.mem_cons_self _ _)) h)

/-- C9: for a pool in the Fixed policy started with `start(k)`, after any sequence of
calls of `submitTask` and worker steps while the pool is running (the destructor
has not begun), the worker count `curThreadsSize_` is `k` and the registry holds
`k` threads. -/
theorem Sys.fixed_worker_count (g : Nat) (cfg : List Setter) (k : Nat) (es : List (Event α))
    (hmode : (Sys.configure g cfg : ThreadPool α).poolMode_ = .MODE_FIXED)
    (hes : ∀ e ∈ es, e.isShutdown = false) :
    ((Sys.boot (Sys.configure g cfg : ThreadPool α) k).run es).pool.curThreadsSize_ = k ∧
      ((Sys.boot (Sys.configure g cfg : ThreadPool α) k).run es).pool.threads_.length = k := by
  obtain ⟨h1, -, -⟩ := Sys.configure_spec (α := α) g cfg
  obtain ⟨hinv, hlen, hcur, -, -, hrun⟩ :=
    ThreadPool.start_spec (Sys.configure g cfg : ThreadPool α) k h1
  have hm : ((Sys.configure g cfg : ThreadPool α).start k).poolMode_ = .MODE_FIXED := by
    rw [hinv.mode, hmode]
  have h := Sys.fixed_run es (Sys.boot (Sys.configure g cfg : ThreadPool α) k) k hes
    ⟨hm, hrun, hcur, hlen, fun t _ => by simp [Sys.boot]⟩
  exact ⟨h.2.2.1, h.2.2.2.1⟩

/-- C9 at the default pool started with `start(2)`: three submissions, a dequeue, the
end of the task and a thread going to wait leave two workers. -/
theorem Sys.fixed_worker_count_two :
    (Sys.configure 0 [] : ThreadPool Nat).poolMode_ = .MODE_FIXED ∧
      (∀ e ∈ ([.submitTask 5, .submitTask 6, .submitTask 7, .worker 0 .no_timeout 0,
          .worker 0 .no_timeout 0, .worker 1 .no_timeout 0] : List (Event Nat)),
        e.isShutdown = false) ∧
      ((Sys.boot (Sys.configure 0 [] : ThreadPool Nat) 2).run
          [.submitTask 5, .submitTask 6, .submitTask 7, .worker 0 .no_timeout 0,
            .worker 0 .no_timeout 0, .worker 1 .no_timeout 0]).pool.curThreadsSize_
        = ((2 : Nat) : Int) ∧
      ((Sys.boot (Sys.configure 0 [] : ThreadPool Nat) 2).run
          [.submitTask 5, .submitTask 6, .submitTask 7, .worker 0 .no_timeout 0,
            .worker 0 .no_timeout 0, .worker 1 .no_timeout 0]).pool.threads_.length = 2 :=
  ⟨by decide, by simp [Event.isShutdown],
    Sys.fixed_worker_count 0 [] 2 _ (by decide) (by simp [Event.isShutdown])⟩

/-! ## The worker count and the registry -/

/-- C7 fails on the code: the default pool is started with `start(1)`, the destructor
begins and the worker, finding the queue empty, erases itself from the registry;
`curThreadsSize_` is still 1 while the registry is empty (the exit on shutdown does
not decrement the count, the exit on idle timeout does). -/
theorem Sys.shutdown_exit_keeps_count :
    ((Sys.boot (Sys.configure 0 [] : ThreadPool Nat) 1).run
        [.shutdown, .worker 0 .no_timeout 0]).pool.curThreadsSize_ = 1 ∧
      ((Sys.boot (Sys.configure 0 [] : ThreadPool Nat) 1).run
        [.shutdown, .worker 0 .no_timeout 0]).pool.threads_.length = 0 := by
  refine ⟨by decide, by decide⟩

/-- While the pool is running, one event keeps `curThreadsSize_` equal to the size of
the registry. -/
theorem Sys.running_step {k : Nat} {mode : PoolMode} {T : Int} (s : Sys α) (e : Event α)
    (he : e.isShutdown = false) (hinv : s.Inv k mode T)
    (h : s.pool.isPoolRunning_ = true ∧ s.pool.curThreadsSize_ = s.pool.threads_.length) :
    (s.step e).pool.isPoolRunning_ = true ∧
      (s.step e).pool.curThreadsSize_ = (s.step e).pool.threads_.length := by
  obtain ⟨hrun, hcur⟩ := h
  cases e with
  | shutdown => simp [Event.isShutdown] at he
  | submitTask sp =>
    by_cases hnf : s.pool.notFull = true
    · by_cases hgrow : (s.pool.enqueue sp).needsThread = true
      · have hr : s.pool.submitTask sp = (true, (s.pool.enqueue sp).addThread) := by
          simp [ThreadPool.submitTask, hnf, hgrow]
        have hfresh : ∀ t ∈ (s.pool.enqueue sp).threads_,
            t < (s.pool.enqueue sp).generateId_ := hinv.pool.fresh
        have hth : (s.pool.enqueue sp).addThread.threads_
            = s.pool.threads_ ++ [s.pool.generateId_] :=
          ThreadPool.emplaceThread_threads _ hfresh
        refine ⟨?_, ?_⟩
        · show (s.pool.submitTask sp).2.isPoolRunning_ = true
          rw [hr]
          exact hrun
        · show (s.pool.submitTask sp).2.curThreadsSize_
            = ((s.pool.submitTask sp).2.threads_.length : Int)
          rw [hr]
          show s.pool.curThreadsSize_ + 1 = (((s.pool.enqueue sp).addThread.threads_.length : Nat) : Int)
          rw [hth, List.length_append, List.length_singleton, hcur]
          push_cast
          rfl
      · have hr : s.pool.submitTask sp = (true, s.pool.enqueue sp) := by
          simp [ThreadPool.submitTask, hnf, hgrow]
        refine ⟨?_, ?_⟩
        · show (s.pool.submitTask sp).2.isPoolRunning_ = true
          rw [hr]
          exact hrun
        · show (s.pool.submitTask sp).2.curThreadsSize_
            = ((s.pool.submitTask sp).2.threads_.length : Int)
          rw [hr]
          exact hcur
    · have hstep : s.step (.submitTask sp) = s := by
        simp [Sys.step, ThreadPool.submitTask, hnf]
      rw [hstep]
      exact ⟨hrun, hcur⟩
  | worker tid status dur =>
    by_cases hmem : tid ∈ s.pool.threads_
    · have hloop : (s.pool.threadFuncLoop tid).1.isPoolRunning_ = true ∧
          (s.pool.threadFuncLoop tid).1.curThreadsSize_
            = ((s.pool.threadFuncLoop tid).1.threads_.length : Int) := by
        cases hq : s.pool.taskQue_ with
        | nil =>
          by_cases hm : s.pool.poolMode_ = .MODE_CACHED
          · simp [ThreadPool.threadFuncLoop, hq, hrun, hm, hcur]
          · simp [ThreadPool.threadFuncLoop, hq, hrun, hm, hcur]
        | cons task rest => simp [ThreadPool.threadFuncLoop, hq, hrun, hcur]
      have hstep : (s.step (.worker tid status dur)).pool
          = (s.pool.threadFunc tid (s.pc tid) status dur).1 := by
        simp [Sys.step, hmem]
      rw [hstep]
      cases hw : s.pc tid with
      | loopTop => exact hloop
      | wait => exact hloop
      | waitFor =>
        by_cases hret : status = .timeout ∧ dur ≥ THREAD_MAX_IDLE_TIME
            ∧ toSizeT s.pool.curThreadsSize_ > s.pool.initThreadsSize_
        · have hr : s.pool.threadFunc tid .waitFor status dur
              = ({ s.pool with threads_ := s.pool.threads_.erase tid
                               curThreadsSize_ := s.pool.curThreadsSize_ - 1
                               idleThreadSize_ := s.pool.idleThreadSize_ - 1 }, .finished) := by
            simp only [ThreadPool.threadFunc, ThreadPool.threadFuncWoken, hret, and_self,
              if_true]
          have hlen := List.length_erase_of_mem hmem
          have hpos : 0 < s.pool.threads_.length := List.length_pos_of_mem hmem
          rw [hr]
          refine ⟨hrun, ?_⟩
          show s.pool.curThreadsSize_ - 1 = ((s.pool.threads_.erase tid).length : Int)
          omega
        · have hr : s.pool.threadFunc tid .waitFor status dur = s.pool.threadFuncLoop tid := by
            simp only [ThreadPool.threadFunc, ThreadPool.threadFuncWoken, hret, if_false]
          rw [hr]
          exact hloop
      | exec task => exact ⟨hrun, hcur⟩
      | finished => exact ⟨hrun, hcur⟩
    · have hstep : s.step (.worker tid status dur) = s := by
        simp [Sys.step, hmem]
      rw [hstep]
      exact ⟨hrun, hcur⟩

/-- While the pool is running (the destructor has not begun), in every state reached
after `start(k)` by calls of `submitTask` and worker steps, `curThreadsSize_` equals
the size of the registry. -/
theorem Sys.running_count_eq_registry (g : Nat) (cfg : List Setter) (k : Nat)
    (es : List (Event α)) (hes : ∀ e ∈ es, e.isShutdown = false) :
    ((Sys.boot (Sys.configure g cfg : ThreadPool α) k).run es).pool.curThreadsSize_
      = (((Sys.boot (Sys.configure g cfg : ThreadPool α) k).run es).pool.threads_.length : Int) := by
  obtain ⟨h1, h2, h3⟩ := Sys.configure_spec (α := α) g cfg
  obtain ⟨-, hlen, hcur, -, -, hrun⟩ :=
    ThreadPool.start_spec (Sys.configure g cfg : ThreadPool α) k h1
  have key : ∀ (es : List (Event α)) (s : Sys α),
      (∀ e ∈ es, e.isShutdown = false) →
      s.Inv k (Sys.configure g cfg : ThreadPool α).poolMode_
        (Sys.configure g cfg : ThreadPool α).threadSizeThreshHOld_ →
      (s.pool.isPoolRunning_ = true ∧ s.pool.curThreadsSize_ = s.pool.threads_.length) →
      (s.run es).pool.isPoolRunning_ = true ∧
        (s.run es).pool.curThreadsSize_ = (s.run es).pool.threads_.length := by
    intro es
    induction es with
    | nil => intro s _ _ h; exact h
    | cons e es ih =>
      intro s hes hinv h
      exact ih (s.step e) (fun e2 h2 => hes e2 (List.mem_cons_of_mem _ h2))
        (Sys.step_inv s e hinv)
        (Sys.running_step s e (hes e (List.mem_cons_self _ _)) hinv h)
  refine (key es _ hes (Sys.boot_inv _ k h1 h2 h3) ⟨hrun, ?_⟩).2
  show ((Sys.configure g cfg : ThreadPool α).start k).curThreadsSize_
    = ((((Sys.configure g cfg : ThreadPool α).start k).threads_.length : Nat) : Int)
  rw [hcur, hlen]

/-! ## When submitTask creates a thread -/

theorem Sys.idle_bounds {k : Nat} {mode : PoolMode} {T : Int} (s : Sys α)
    (h : s.Inv k mode T) :
    0 ≤ s.pool.idleThreadSize_ ∧ s.pool.idleThreadSize_ ≤ s.pool.curThreadsSize_ := by
  have hi := h.idle
  have hreg := h.pool.reg_le
  have hw : s.waiting ≤ s.pool.threads_.length := List.countP_le_length _
  constructor <;> omega

theorem ThreadPool.needsThread_iff (p : ThreadPool α) (h0 : 0 ≤ p.idleThreadSize_)
    (h1 : p.idleThreadSize_ ≤ INT_MAX) :
    p.needsThread = true ↔
      p.poolMode_ = .MODE_CACHED ∧ p.idleThreadSize_ < (p.taskSize_ : Int) ∧
        p.curThreadsSize_ < p.threadSizeThreshHOld_ := by
  have hc := toUInt_eq p.idleThreadSize_ h0 h1
  simp only [ThreadPool.needsThread, Bool.and_eq_true, decide_eq_true_eq, gt_iff_lt]
  constructor
  · rintro ⟨⟨hm, hlt⟩, hcur⟩
    exact ⟨hm, by omega, hcur⟩
  · rintro ⟨hm, hlt, hcur⟩
    exact ⟨⟨hm, by omega⟩, hcur⟩

/-- C8: let `p` be a state of a pool started with `start(k)` (`k` and the thread
threshold being `int` values) and `q` the state after a call of `submitTask` that
was accepted.  The task is at the back of the queue.  Exactly one new thread is in
the registry and `curThreadsSize_` and `idleThreadSize_` have each risen by one if
and only if the policy is Cached and, after the enqueue, `taskSize_` is greater
than `idleThreadSize_` and `curThreadsSize_` is below the thread threshold;
otherwise the registry and both counts are unchanged. -/
theorem Sys.submitTask_growth (g : Nat) (cfg : List Setter) (k : Nat) (es : List (Event α))
    (sp : α) (p q : ThreadPool α) (hk : (k : Int) ≤ INT_MAX)
    (hT : (Sys.configure g cfg : ThreadPool α).threadSizeThreshHOld_ ≤ INT_MAX)
    (hp : p = ((Sys.boot (Sys.configure g cfg : ThreadPool α) k).run es).pool)
    (hq : q = (p.submitTask sp).2) (haccepted : (p.submitTask sp).1 = true) :
    q.taskQue_ = p.taskQue_ ++ [sp] ∧
      (((∃ id, id ∉ p.threads_ ∧ q.threads_ = p.threads_ ++ [id]) ∧
          q.curThreadsSize_ = p.curThreadsSize_ + 1 ∧
          q.idleThreadSize_ = p.idleThreadSize_ + 1) ↔
        (p.poolMode_ = .MODE_CACHED ∧ p.idleThreadSize_ < (q.taskSize_ : Int) ∧
          p.curThreadsSize_ < p.threadSizeThreshHOld_)) ∧
      (¬ (p.poolMode_ = .MODE_CACHED ∧ p.idleThreadSize_ < (q.taskSize_ : Int) ∧
          p.curThreadsSize_ < p.threadSizeThreshHOld_) →
        q.threads_ = p.threads_ ∧ q.curThreadsSize_ = p.curThreadsSize_ ∧
          q.idleThreadSize_ = p.idleThreadSize_) := by
  have hinv := Sys.reachable_inv g cfg k es
  have hb := Sys.idle_bounds _ hinv
  rw [← hp] at hb
  have hpool : p.Inv k (Sys.configure g cfg : ThreadPool α).poolMode_
      (Sys.configure g cfg : ThreadPool α).threadSizeThreshHOld_ := by
    rw [hp]
    exact hinv.pool
  have hup := hpool.upper
  have hmax : max (k : Int) (Sys.configure g cfg : ThreadPool α).threadSizeThreshHOld_
      ≤ INT_MAX := max_le hk hT
  have hiff := ThreadPool.needsThread_iff (p.enqueue sp) hb.1
    (show p.idleThreadSize_ ≤ INT_MAX by omega)
  have hnf : p.notFull = true := by
    by_contra hn
    simp [ThreadPool.submitTask, hn] at haccepted
  by_cases hgrow : (p.enqueue sp).needsThread = true
  · have hr : p.submitTask sp = (true, (p.enqueue sp).addThread) := by
      simp [ThreadPool.submitTask, hnf, hgrow]
    have hfresh : ∀ t ∈ (p.enqueue sp).threads_, t < (p.enqueue sp).generateId_ := hpool.fresh
    have hth : (p.enqueue sp).addThread.threads_ = p.threads_ ++ [p.generateId_] :=
      ThreadPool.emplaceThread_threads _ hfresh
    have hnot : p.generateId_ ∉ p.threads_ := fun hm => Nat.lt_irrefl _ (hpool.fresh _ hm)
    have hcond := hiff.mp hgrow
    rw [hr] at hq
    subst hq
    refine ⟨rfl, ⟨fun _ => hcond, fun _ => ⟨⟨p.generateId_, hnot, hth⟩, rfl, rfl⟩⟩, ?_⟩
    intro hneg
    exact absurd hcond hneg
  · have hr : p.submitTask sp = (true, p.enqueue sp) := by
      simp [ThreadPool.submitTask, hnf, hgrow]
    have hcond : ¬ (p.poolMode_ = .MODE_CACHED ∧
        p.idleThreadSize_ < ((p.enqueue sp).taskSize_ : Int) ∧
        p.curThreadsSize_ < p.threadSizeThreshHOld_) := fun hc => hgrow (hiff.mpr hc)
    rw [hr] at hq
    subst hq
    refine ⟨rfl, ⟨?_, fun hc => absurd hc hcond⟩, fun _ => ⟨rfl, rfl, rfl⟩⟩
    rintro ⟨⟨id, -, hid⟩, -, -⟩
    have hid2 : p.threads_ = p.threads_ ++ [id] := hid
    have hlen := congrArg List.length hid2
    rw [List.length_append, List.length_singleton] at hlen
    omega

/-- C8 at `demoCached`, a Cached pool started with `start(1)` that holds one task and
one idle worker: the second submission makes two tasks against one idle worker and
adds the thread with id 1. -/
theorem Sys.submitTask_growth_second :
    (((1 : Nat) : Int) ≤ INT_MAX ∧
      (Sys.configure 0 [.setPoolMode .MODE_CACHED] : ThreadPool Nat).threadSizeThreshHOld_
        ≤ INT_MAX ∧
      (demoCached.submitTask 6).1 = true ∧
      demoCached.threads_ = [0] ∧ (demoCached.submitTask 6).2.threads_ = [0, 1]) ∧
    ((demoCached.submitTask 6).2.taskQue_ = demoCached.taskQue_ ++ [6] ∧
      (((∃ id, id ∉ demoCached.threads_ ∧
            (demoCached.submitTask 6).2.threads_ = demoCached.threads_ ++ [id]) ∧
          (demoCached.submitTask 6).2.curThreadsSize_ = demoCached.curThreadsSize_ + 1 ∧
          (demoCached.submitTask 6).2.idleThreadSize_ = demoCached.idleThreadSize_ + 1) ↔
        (demoCached.poolMode_ = .MODE_CACHED ∧
          demoCached.idleThreadSize_ < ((demoCached.submitTask 6).2.taskSize_ : Int) ∧
          demoCached.curThreadsSize_ < demoCached.threadSizeThreshHOld_)) ∧
      (¬ (demoCached.poolMode_ = .MODE_CACHED ∧
          demoCached.idleThreadSize_ < ((demoCached.submitTask 6).2.taskSize_ : Int) ∧
          demoCached.curThreadsSize_ < demoCached.threadSizeThreshHOld_) →
        (demoCached.submitTask 6).2.threads_ = demoCached.threads_ ∧
          (demoCached.submitTask 6).2.curThreadsSize_ = demoCached.curThreadsSize_ ∧
          (demoCached.submitTask 6).2.idleThreadSize_ = demoCached.idleThreadSize_)) :=
  ⟨⟨by decide, by decide, by decide, by decide, by decide⟩,
    Sys.submitTask_growth 0 [.setPoolMode .MODE_CACHED] 1 [.submitTask 5] 6 demoCached
      (demoCached.submitTask 6).2 (by decide) (by decide) rfl rfl (by decide)⟩

/-! ## Shutdown: a worker leaves only when the queue is empty -/

theorem Sys.run_append (s : Sys α) (es1 es2 : List (Event α)) :
    s.run (es1 ++ es2) = (s.run es1).run es2 := by
  simp [Sys.run, List.foldl_append]

end Claims

end ThreadPoolSpec
